import Mathlib

/-!
Shallow embedding of the Unictris simulation core (src/shape.rs and
src/game.rs): the tetromino shape table, the board model and the engine
operations try_move, wipe_filled_rows and do_tick, with proofs of the
specification claims about them.  Machine integers (u8, u32, u64) are
modelled as Nat; under the stated bounds hypotheses none of the source's
arithmetic overflows, and the one deliberate wrap, the tick counter's
modulus, is kept explicit.
-/

/-- Board width in columns (game.rs BOARD_WIDTH = 10). -/
def BOARD_WIDTH : Nat := 10

/-- Board height in rows (game.rs BOARD_HEIGHT = 20). -/
def BOARD_HEIGHT : Nat := 20

/-- Ticks per level step (game.rs LEVEL_TICK_INCREASE). -/
def LEVEL_TICK_INCREASE : Nat := 6000

/-- Gravity cadence divisor (game.rs FRAMES_PER_DROP). -/
def FRAMES_PER_DROP : Nat := 30

/-- The value of u64::MAX, the modulus applied to the tick counter in
Game::do_tick. -/
def U64_MAX : Nat := 2 ^ 64 - 1

/-- The packed shape table (shape.rs BLOCK): 7 tetrominoes, 16 bits each,
one nibble per occupied square (2 bits x above 2 bits y). -/
def BLOCK : List Nat := [0x2154, 0x6510, 0x5140, 0x9840, 0x1654, 0x3210, 0x8951]

/-- Rotation of a cell of the 4x4 block by r quarter turns
(shape.rs Shape::rotate, with TETROMINO_WIDTH = TETROMINO_HEIGHT = 4).
The source has an unreachable arm for r >= 4; it is given the junk
value (x, y) here. -/
def rotateCell (x y r : Nat) : Nat × Nat :=
  match r with
  | 0 => (x, y)
  | 1 => (4 - 1 - y, x)
  | 2 => (4 - 1 - x, 4 - 1 - y)
  | 3 => (y, 4 - 1 - x)
  | _ => (x, y)

/-- Unrotated coordinates of square i of shape kind k, unpacked from BLOCK
(the bit extraction in the first loop of Shape::coor).  A kind outside
0..7, which indexes out of range in the source, reads the table with
default 0 here. -/
def rawCell (k i : Nat) : Nat × Nat :=
  ((BLOCK.getD k 0 >>> (4 * i + 2)) &&& 3, (BLOCK.getD k 0 >>> (4 * i)) &&& 3)

/-- The four rotated, not yet normalized squares of shape k at rotation r
(the a array after the first loop of Shape::coor). -/
def rotCells (k r : Nat) : List (Nat × Nat) :=
  (List.range 4).map (fun i => rotateCell (rawCell k i).1 (rawCell k i).2 r)

/-- Minimum x over a cell list, starting from u8::MAX as the source does. -/
def minX (l : List (Nat × Nat)) : Nat := l.foldl (fun m c => min m c.1) 255

/-- Minimum y over a cell list, starting from u8::MAX as the source does. -/
def minY (l : List (Nat × Nat)) : Nat := l.foldl (fun m c => min m c.2) 255

/-- Shape::coor: the 4 occupied cells of shape k at rotation r, rotated and
then renormalized by subtracting the componentwise minima. -/
def coorList (k r : Nat) : List (Nat × Nat) :=
  (rotCells k r).map (fun c => (c.1 - minX (rotCells k r), c.2 - minY (rotCells k r)))

/-- Shape::dim: width and height of shape k at rotation r, the componentwise
maxima of the normalized cells plus one. -/
def dim (k r : Nat) : Nat × Nat :=
  ((coorList k r).foldl (fun m c => max m c.1) 0 + 1,
   (coorList k r).foldl (fun m c => max m c.2) 0 + 1)

/-- One 90-degree rotation step on an arbitrary cell list: rotate each cell
and renormalize, exactly the r = 1 pipeline of Shape::coor. -/
def rotStep (l : List (Nat × Nat)) : List (Nat × Nat) :=
  (l.map (fun c => rotateCell c.1 c.2 1)).map
    (fun c => (c.1 - minX (l.map (fun d => rotateCell d.1 d.2 1)),
               c.2 - minY (l.map (fun d => rotateCell d.1 d.2 1))))

/-- The 20 x 10 playing field as a total function from (row, column) to the
stored cell value (game.rs Board).  Positions outside the grid are junk
that the verified operations never touch (claim C8). -/
abbrev Board := Nat → Nat → Nat

/-- Board::get: get(x, y) reads board[y][x]. -/
def getB (b : Board) (x y : Nat) : Nat := b y x

/-- Board::set: set(x, y, v) writes board[y][x] = v. -/
def setB (b : Board) (x y v : Nat) : Board :=
  fun yy xx => if yy = y ∧ xx = x then v else b yy xx

/-- Board::is_filled: every one of the 10 cells of the row is non-zero. -/
def isFilled (b : Board) (row : Nat) : Bool :=
  (List.range BOARD_WIDTH).all (fun x => b row x != 0)

/-- One whole-row copy board[dst] = board[src], the body of the loop in
Board::wipe. -/
def copyRow (b : Board) (dst src : Nat) : Board :=
  fun yy xx => if yy = dst then b src xx else b yy xx

/-- The loop of Board::wipe: for i in (0..row).rev() do
board[i + 1] = board[i], by recursion on the loop counter (the first
iteration copies row row-1 into row row). -/
def wipeIter (b : Board) : Nat → Board
  | 0 => b
  | n + 1 => wipeIter (copyRow b (n + 1) n) n

/-- Board::wipe: run the shift loop, then board[0].fill(0). -/
def wipe (b : Board) (row : Nat) : Board :=
  fun yy xx => if yy = 0 then 0 else wipeIter b row yy xx

/-- The active piece (game.rs Tetromino): bounding-box position on the
board, rotation index and shape kind. -/
structure Tetromino where
  x : Nat
  y : Nat
  orientation : Nat
  kind : Nat

/-- A deterministic stream of draws standing in for rand's ThreadRng. -/
abbrev Rng := Nat → Nat

/-- One draw in 0..n from the stream, modelling random_range(0..n): take
the head modulo n and advance the stream. -/
def randRange (g : Rng) (n : Nat) : Nat × Rng := (g 0 % n, fun i => g (i + 1))

/-- Tetromino::new: a random orientation in 0..4, a random shape kind, and
a random x in 0..(BOARD_WIDTH - width + 1), at y = 0.  Modelled from the
spec: Shape::random is called by game.rs but missing from src/; section 4.6
of the spec says the kind is uniform over the 7 values, modelled here as
one stream draw. -/
def Tetromino.new (g : Rng) : Tetromino × Rng :=
  match randRange g 4 with
  | (ori, g1) =>
    match randRange g1 7 with
    | (kind, g2) =>
      match randRange g2 (BOARD_WIDTH - (dim kind ori).1 + 1) with
      | (x, g3) => ({ x := x, y := 0, orientation := ori, kind := kind }, g3)

/-- The whole engine state (game.rs Game). -/
structure Game where
  tetromino : Tetromino
  tick : Nat
  score : Nat
  board : Board
  paused : Bool
  rng : Rng

/-- The four move intents (game.rs Move). -/
inductive Move where
  | left
  | right
  | down
  | rotate

/-- Game::draw_tetromino: write value v at each absolute cell of the active
piece's footprint. -/
def drawTetromino (g : Game) (v : Nat) : Game :=
  { g with
    board := (coorList g.tetromino.kind g.tetromino.orientation).foldl
      (fun b c => setB b (c.1 + g.tetromino.x) (c.2 + g.tetromino.y) v) g.board }

/-- Game::set_tetromino: paint the piece with value kind + 1. -/
def setTetromino (g : Game) : Game := drawTetromino g (g.tetromino.kind + 1)

/-- Game::clear_tetromino: erase the piece's footprint. -/
def clearTetromino (g : Game) : Game := drawTetromino g 0

/-- The candidate (x, y, r) computed by the match at the top of
Game::try_move; the arms that return false immediately become none. -/
def candidate (g : Game) (m : Move) : Option (Nat × Nat × Nat) :=
  match m with
  | Move.left =>
    if 0 < g.tetromino.x then
      some (g.tetromino.x - 1, g.tetromino.y, g.tetromino.orientation)
    else none
  | Move.right =>
    if g.tetromino.x + (dim g.tetromino.kind g.tetromino.orientation).1 < BOARD_WIDTH then
      some (g.tetromino.x + 1, g.tetromino.y, g.tetromino.orientation)
    else none
  | Move.down => some (g.tetromino.x, g.tetromino.y + 1, g.tetromino.orientation)
  | Move.rotate =>
    some (if BOARD_WIDTH < g.tetromino.x + (dim g.tetromino.kind ((g.tetromino.orientation + 1) % 4)).1
          then BOARD_WIDTH - (dim g.tetromino.kind ((g.tetromino.orientation + 1) % 4)).1
          else g.tetromino.x,
          g.tetromino.y,
          (g.tetromino.orientation + 1) % 4)

/-- The collision test of Game::try_move, run on the board with the piece
already erased: some candidate cell is off the bottom, off the right edge,
or lands on a non-zero cell. -/
def hitTest (g : Game) (x y r : Nat) : Bool :=
  (coorList g.tetromino.kind r).any (fun c =>
    decide (BOARD_HEIGHT ≤ y + c.2) || decide (BOARD_WIDTH ≤ x + c.1) ||
      decide (getB g.board (x + c.1) (y + c.2) ≠ 0))

/-- Game::try_move: compute the candidate placement, reject it if it sticks
out of the bottom, erase the piece, run the collision test, repaint the
piece at its old placement, and on a miss erase it once more and repaint it
at the candidate placement. -/
def tryMove (g : Game) (m : Move) : Bool × Game :=
  match candidate g m with
  | none => (false, g)
  | some (x, y, r) =>
    if BOARD_HEIGHT < y + (dim g.tetromino.kind r).2 then (false, g)
    else if hitTest (clearTetromino g) x y r then (false, setTetromino (clearTetromino g))
    else
      (true, setTetromino
        { clearTetromino (setTetromino (clearTetromino g)) with
          tetromino := { g.tetromino with x := x, y := y, orientation := r } })

/-- The row loop of Game::wipe_filled_rows: over the given rows in order,
collapse each row that is full at that moment and count it. -/
def wipeRowsLoop (b : Board) (s : Nat) : List Nat → Board × Nat
  | [] => (b, s)
  | r :: rs =>
    if isFilled b r then wipeRowsLoop (wipe b r) (s + 1) rs
    else wipeRowsLoop b s rs

/-- The statement self.tetromino = Tetromino::new(&mut self.rng) that ends
wipe_filled_rows and recurs in do_tick's lock path. -/
def respawn (g : Game) : Game :=
  { g with tetromino := (Tetromino.new g.rng).1, rng := (Tetromino.new g.rng).2 }

/-- Game::wipe_filled_rows: scan the rows y .. y + height of the active
piece, collapsing full ones and bumping the score, then spawn a new
piece. -/
def wipeFilledRows (g : Game) : Game :=
  respawn
    { g with
      board := (wipeRowsLoop g.board g.score
        (List.range' g.tetromino.y (dim g.tetromino.kind g.tetromino.orientation).2)).1,
      score := (wipeRowsLoop g.board g.score
        (List.range' g.tetromino.y (dim g.tetromino.kind g.tetromino.orientation).2)).2 }

/-- The gravity-cadence predicate of Game::do_tick, on the already
incremented tick. -/
def gravity (t : Nat) : Bool := decide (t % FRAMES_PER_DROP ≤ t / LEVEL_TICK_INCREASE)

/-- The tick increment self.tick = (self.tick + 1) % u64::MAX. -/
def tickInc (g : Game) : Game := { g with tick := (g.tick + 1) % U64_MAX }

/-- Game::do_tick: when unpaused, bump the tick; on gravity ticks push the
piece down, and when that fails either report game over (the piece is still
at y = 0) or lock it, clear full rows and respawn. -/
def doTick (g : Game) : Bool × Game :=
  if g.paused then (true, g)
  else if gravity (tickInc g).tick then
    if (tryMove (tickInc g) Move.down).1 then (true, (tryMove (tickInc g) Move.down).2)
    else if (tryMove (tickInc g) Move.down).2.tetromino.y = 0 then
      (false, (tryMove (tickInc g) Move.down).2)
    else (true, respawn (wipeFilledRows (tryMove (tickInc g) Move.down).2))
  else (true, tickInc g)

/-- The active piece is painted on the board: every footprint cell holds the
paint value kind + 1.  This is the state the erase/repaint cycle of
try_move maintains between calls. -/
def Painted (g : Game) : Prop :=
  ∀ c ∈ coorList g.tetromino.kind g.tetromino.orientation,
    g.board (c.2 + g.tetromino.y) (c.1 + g.tetromino.x) = g.tetromino.kind + 1

/-- The board indices (x, y) written by one draw_tetromino call for piece
t: the footprint cells. -/
def drawAccesses (t : Tetromino) : List (Nat × Nat) :=
  (coorList t.kind t.orientation).map (fun c => (c.1 + t.x, c.2 + t.y))

/-- The board indices read by the collision test of try_move for candidate
placement (x, y, r).  Board::get is reached only when the two bound
disjuncts before it are false, so only those cells are listed; the any
combinator may stop early, so the gets it performs are among these. -/
def candGetAccesses (t : Tetromino) (x y r : Nat) : List (Nat × Nat) :=
  (coorList t.kind r).filterMap (fun c =>
    if BOARD_HEIGHT ≤ y + c.2 then none
    else if BOARD_WIDTH ≤ x + c.1 then none
    else some (x + c.1, y + c.2))

/-- The board indices touched by Game::try_move, in order: erase at the old
placement, collision-test gets, repaint at the old placement, and on a miss
a second erase and the paint at the candidate placement. -/
def tryMoveAccesses (g : Game) (m : Move) : List (Nat × Nat) :=
  match candidate g m with
  | none => []
  | some (x, y, r) =>
    if BOARD_HEIGHT < y + (dim g.tetromino.kind r).2 then []
    else
      drawAccesses g.tetromino ++ candGetAccesses g.tetromino x y r ++
        drawAccesses g.tetromino ++
        (if hitTest (clearTetromino g) x y r then []
         else drawAccesses g.tetromino ++
           drawAccesses { g.tetromino with x := x, y := y, orientation := r })

/-- The board indices touched by Board::wipe r: the loop reads row i and
writes row i + 1 for i = r-1 down to 0 and then writes row 0, so every
column of every row 0 .. r. -/
def wipeAccesses (r : Nat) : List (Nat × Nat) :=
  (List.range (r + 1)).flatMap (fun row => (List.range BOARD_WIDTH).map (fun x => (x, row)))

/-- The board indices touched by the row loop of wipe_filled_rows: each row
of the span is read by is_filled, and the rows full at that moment are
collapsed by wipe. -/
def wipeRowsLoopAccesses (b : Board) : List Nat → List (Nat × Nat)
  | [] => []
  | r :: rs =>
    (List.range BOARD_WIDTH).map (fun x => (x, r)) ++
      (if isFilled b r then wipeAccesses r ++ wipeRowsLoopAccesses (wipe b r) rs
       else wipeRowsLoopAccesses b rs)

/-- The board indices touched by Game::wipe_filled_rows (Tetromino::new
reads no board cell). -/
def wipeFilledRowsAccesses (g : Game) : List (Nat × Nat) :=
  wipeRowsLoopAccesses g.board
    (List.range' g.tetromino.y (dim g.tetromino.kind g.tetromino.orientation).2)

/-- The board indices touched by Game::do_tick. -/
def doTickAccesses (g : Game) : List (Nat × Nat) :=
  if g.paused then []
  else if gravity (tickInc g).tick then
    tryMoveAccesses (tickInc g) Move.down ++
      (if (tryMove (tickInc g) Move.down).1 then []
       else if (tryMove (tickInc g) Move.down).2.tetromino.y = 0 then []
       else wipeFilledRowsAccesses (tryMove (tickInc g) Move.down).2)
  else []

/-- A fixed deterministic draw stream for the concrete example states. -/
def rngId : Rng := fun i => i

/-- Concrete state for claim C1's counterexample: the O-shaped piece
(kind 2) at the top left, its footprint not painted on the board, with
blockers in row 2 that make the down move collide. -/
def gC1 : Game :=
  { tetromino := { x := 0, y := 0, orientation := 0, kind := 2 }
    tick := 0
    score := 0
    board := fun y x => if y = 2 ∧ x < 2 then 5 else 0
    paused := false
    rng := rngId }

/-- Concrete state for claim C3's counterexample: a freshly spawned
horizontal I piece (kind 5, rotation 1) at y = 0 whose whole footprint
overlaps the fully occupied top row; nothing else on the board. -/
def gC3 : Game :=
  { tetromino := { x := 0, y := 0, orientation := 1, kind := 5 }
    tick := 29
    score := 0
    board := fun y _ => if y = 0 then 5 else 0
    paused := false
    rng := rngId }

/-- Concrete state for claim C3's amended theorem's witness: as gC3 but
with rows 0 and 1 both occupied, so the down move also collides. -/
def gC3b : Game :=
  { tetromino := { x := 0, y := 0, orientation := 1, kind := 5 }
    tick := 29
    score := 0
    board := fun y _ => if y ≤ 1 then 5 else 0
    paused := false
    rng := rngId }

/-- Concrete state for claim C7's counterexample: the O piece freshly
spawned at the top left over pre-filled cells (rows 0..2 of columns 0..1
hold 5), so the down move collides while y = 0 and the footprint was not
painted. -/
def gC7 : Game :=
  { tetromino := { x := 0, y := 0, orientation := 0, kind := 2 }
    tick := 29
    score := 0
    board := fun y x => if y < 3 ∧ x < 2 then 5 else 0
    paused := false
    rng := rngId }

/-- Concrete painted state used by the witnesses of claims C1 and C7: the
O piece painted at the top left (footprint value kind + 1 = 3) with
blockers below it in row 2, so the down move collides while y = 0. -/
def gPainted : Game :=
  { tetromino := { x := 0, y := 0, orientation := 0, kind := 2 }
    tick := 29
    score := 0
    board := fun y x =>
      if y < 2 ∧ x < 2 then 3 else if y = 2 ∧ x < 2 then 5 else 0
    paused := false
    rng := rngId }

/-- Concrete state for claim C2's witness: the O piece on an empty board. -/
def gEmptyO : Game :=
  { tetromino := { x := 0, y := 0, orientation := 0, kind := 2 }
    tick := 0
    score := 0
    board := fun _ _ => 0
    paused := false
    rng := rngId }

/-- Concrete state for claim C8's witness: the vertical I piece (kind 5)
at the top left of an empty board. -/
def gEmptyI : Game :=
  { tetromino := { x := 0, y := 0, orientation := 0, kind := 5 }
    tick := 0
    score := 0
    board := fun _ _ => 0
    paused := false
    rng := rngId }

/-- Concrete state for claim C10's witness: the O piece at (0, 16) above
blockers in row 18, so on the next gravity tick the down move fails away
from y = 0 and the lock path of do_tick runs. -/
def gLock : Game :=
  { tetromino := { x := 0, y := 16, orientation := 0, kind := 2 }
    tick := 29
    score := 0
    board := fun y x => if y = 18 ∧ x < 2 then 5 else 0
    paused := false
    rng := rngId }

/-- Concrete board for claim C5: row 0 holds 7 everywhere, all other rows
are empty. -/
def bRow0 : Board := fun y _ => if y = 0 then 7 else 0

/-- Concrete board for claim C5's witness: every cell holds its row index
plus one, so every row copy is observable. -/
def bRows : Board := fun y _ => y + 1

/-- Pointwise description of the wipe loop: after the loop, rows 1 .. n
hold what the row above them held, and all other rows are untouched. -/
theorem wipeIter_apply : ∀ (n : Nat) (b : Board) (y x : Nat),
    wipeIter b n y x = if 1 ≤ y ∧ y ≤ n then b (y - 1) x else b y x := by
  intro n
  induction n with
  | zero =>
    intro b y x
    simp only [wipeIter]
    rw [if_neg (by omega)]
  | succ n ih =>
    intro b y x
    simp only [wipeIter]
    rw [ih]
    simp only [copyRow]
    by_cases h1 : 1 ≤ y ∧ y ≤ n
    · rw [if_pos h1, if_neg (by omega), if_pos (by omega)]
    · rw [if_neg h1]
      by_cases h2 : y = n + 1
      · subst h2
        rw [if_pos rfl, if_pos (by omega)]
        simp
      · rw [if_neg h2, if_neg (by omega)]

/-- Pointwise description of Board::wipe: row 0 is zeroed, rows 1 .. row
hold what the row above them held, rows past row are untouched. -/
theorem wipe_apply (b : Board) (r y x : Nat) :
    wipe b r y x = if y = 0 then 0 else if y ≤ r then b (y - 1) x else b y x := by
  unfold wipe
  by_cases h0 : y = 0
  · rw [if_pos h0, if_pos h0]
  · rw [if_neg h0, if_neg h0, wipeIter_apply]
    by_cases h1 : y ≤ r
    · rw [if_pos (by omega), if_pos h1]
    · rw [if_neg (by omega), if_neg h1]

/-- is_filled unfolded to a statement about the 10 cells of the row. -/
theorem isFilled_iff (b : Board) (row : Nat) :
    isFilled b row = true ↔ ∀ x, x < BOARD_WIDTH → b row x ≠ 0 := by
  simp [isFilled, List.all_eq_true, List.mem_range]

/-- Collapsing a row does not change the filled status of any row strictly
past it. -/
theorem isFilled_wipe_gt (b : Board) (r row : Nat) (h : r < row) :
    isFilled (wipe b r) row = isFilled b row := by
  unfold isFilled
  congr 1
  funext x
  rw [wipe_apply, if_neg (by omega), if_neg (by omega)]

/-- The score accumulated by the row loop of wipe_filled_rows counts the
rows of the scanned span that were full when the loop began: rows are
scanned upward and a collapse only rewrites rows at or above the collapsed
one. -/
theorem wipeRowsLoop_score : ∀ (h y : Nat) (b : Board) (s : Nat),
    (wipeRowsLoop b s (List.range' y h)).2
      = s + ((List.range' y h).filter (fun r => isFilled b r)).length := by
  intro h
  induction h with
  | zero => intro y b s; simp [wipeRowsLoop]
  | succ n ih =>
    intro y b s
    have hr : List.range' y (n + 1) = y :: List.range' (y + 1) n := by
      simpa using List.range'_succ y n 1
    rw [hr]
    simp only [wipeRowsLoop, List.filter_cons]
    by_cases hf : isFilled b y = true
    · rw [if_pos hf, ih]
      have hcong : (List.range' (y + 1) n).filter (fun r => isFilled (wipe b y) r)
          = (List.range' (y + 1) n).filter (fun r => isFilled b r) := by
        apply List.filter_congr
        intro a ha
        have hya : y < a := by
          have := List.mem_range'_1.mp ha
          omega
        rw [isFilled_wipe_gt _ _ _ hya]
      rw [hcong, hf]
      simp
      omega
    · rw [if_neg hf, ih]
      have hf2 : isFilled b y = false := by
        cases hb : isFilled b y
        · rfl
        · exact absurd hb hf
      rw [hf2]
      simp

/-- draw_tetromino leaves every Game field except the board unchanged. -/
theorem drawTetromino_tetromino (g : Game) (v : Nat) :
    (drawTetromino g v).tetromino = g.tetromino := rfl

theorem drawTetromino_score (g : Game) (v : Nat) :
    (drawTetromino g v).score = g.score := rfl

theorem drawTetromino_rng (g : Game) (v : Nat) :
    (drawTetromino g v).rng = g.rng := rfl

theorem drawTetromino_tick (g : Game) (v : Nat) :
    (drawTetromino g v).tick = g.tick := rfl

theorem drawTetromino_paused (g : Game) (v : Nat) :
    (drawTetromino g v).paused = g.paused := rfl

/-- Pointwise value of a fold of same-valued set calls: a cell holds v when
some listed cell maps onto it, and is untouched otherwise. -/
theorem foldl_setB_apply (f : Nat × Nat → Nat × Nat) (v yy xx : Nat) :
    ∀ (l : List (Nat × Nat)) (b : Board),
      (l.foldl (fun acc c => setB acc (f c).1 (f c).2 v) b) yy xx
        = if l.any (fun c => decide ((f c).1 = xx) && decide ((f c).2 = yy)) then v
          else b yy xx := by
  intro l
  induction l with
  | nil => intro b; simp
  | cons a l ih =>
    intro b
    rw [List.foldl_cons, ih, List.any_cons]
    by_cases htl : l.any (fun c => decide ((f c).1 = xx) && decide ((f c).2 = yy)) = true
    · rw [htl]
      simp
    · have htl2 : l.any (fun c => decide ((f c).1 = xx) && decide ((f c).2 = yy)) = false := by
        cases hb : l.any (fun c => decide ((f c).1 = xx) && decide ((f c).2 = yy))
        · rfl
        · exact absurd hb htl
      rw [htl2, if_neg (by simp [htl2])]
      simp only [setB]
      by_cases hhd : (f a).1 = xx ∧ (f a).2 = yy
      · rw [if_pos ⟨hhd.2.symm, hhd.1.symm⟩, if_pos (by simp [hhd.1, hhd.2])]
      · rw [if_neg (fun hc => hhd ⟨hc.2.symm, hc.1.symm⟩),
            if_neg (by simp only [Bool.or_false, Bool.and_eq_true, decide_eq_true_eq]; exact hhd)]

/-- Pointwise value of the board after draw_tetromino: footprint cells hold
v, all others are untouched. -/
theorem drawTetromino_board (g : Game) (v yy xx : Nat) :
    (drawTetromino g v).board yy xx
      = if (coorList g.tetromino.kind g.tetromino.orientation).any
            (fun c => decide (c.1 + g.tetromino.x = xx) && decide (c.2 + g.tetromino.y = yy))
        then v else g.board yy xx := by
  unfold drawTetromino
  exact foldl_setB_apply (fun c => (c.1 + g.tetromino.x, c.2 + g.tetromino.y)) v yy xx _ _

/-- The erase/repaint pair of try_move restores the board exactly when the
piece was painted before the call. -/
theorem set_clear_board (g : Game) (hp : Painted g) :
    (setTetromino (clearTetromino g)).board = g.board := by
  funext yy xx
  unfold setTetromino clearTetromino
  rw [drawTetromino_board]
  simp only [drawTetromino_tetromino]
  rw [drawTetromino_board]
  by_cases hmem : (coorList g.tetromino.kind g.tetromino.orientation).any
      (fun c => decide (c.1 + g.tetromino.x = xx) && decide (c.2 + g.tetromino.y = yy)) = true
  · rw [if_pos hmem]
    rcases List.any_eq_true.mp hmem with ⟨c, hc, hcp⟩
    have h1 : c.1 + g.tetromino.x = xx := by
      have := (Bool.and_eq_true _ _).mp hcp
      exact of_decide_eq_true this.1
    have h2 : c.2 + g.tetromino.y = yy := by
      have := (Bool.and_eq_true _ _).mp hcp
      exact of_decide_eq_true this.2
    rw [← h1, ← h2]
    exact (hp c hc).symm
  · have hmem2 : (coorList g.tetromino.kind g.tetromino.orientation).any
        (fun c => decide (c.1 + g.tetromino.x = xx) && decide (c.2 + g.tetromino.y = yy)) = false := by
      cases hb : (coorList g.tetromino.kind g.tetromino.orientation).any
          (fun c => decide (c.1 + g.tetromino.x = xx) && decide (c.2 + g.tetromino.y = yy))
      · rfl
      · exact absurd hb hmem
    rw [hmem2]
    simp

/-- A fold of max is bounded when the start and every contribution are. -/
theorem foldl_max_le_of (f : Nat × Nat → Nat) (n : Nat) :
    ∀ (l : List (Nat × Nat)) (a : Nat), a ≤ n → (∀ c ∈ l, f c ≤ n) →
      l.foldl (fun m c => max m (f c)) a ≤ n := by
  intro l
  induction l with
  | nil => intro a ha _; simpa using ha
  | cons hd tl ih =>
    intro a ha hl
    rw [List.foldl_cons]
    exact ih _ (max_le ha (hl hd (List.mem_cons_self hd tl)))
      (fun c hc => hl c (List.mem_cons_of_mem hd hc))

/-- A fold of max dominates its start. -/
theorem le_foldl_max_init (f : Nat × Nat → Nat) :
    ∀ (l : List (Nat × Nat)) (a : Nat), a ≤ l.foldl (fun m c => max m (f c)) a := by
  intro l
  induction l with
  | nil => intro a; simp
  | cons hd tl ih =>
    intro a
    rw [List.foldl_cons]
    exact le_trans (le_max_left a (f hd)) (ih _)

/-- A fold of max dominates every listed contribution. -/
theorem le_foldl_max (f : Nat × Nat → Nat) :
    ∀ (l : List (Nat × Nat)) (a : Nat), ∀ c ∈ l,
      f c ≤ l.foldl (fun m c => max m (f c)) a := by
  intro l
  induction l with
  | nil => intro a c hc; simp at hc
  | cons hd tl ih =>
    intro a c hc
    rw [List.foldl_cons]
    rcases List.mem_cons.mp hc with h | h
    · subst h
      exact le_trans (le_max_right a (f c)) (le_foldl_max_init f tl _)
    · exact ih _ c h

/-- Both components of an unpacked square are at most 3 (they are masked
with 3). -/
theorem rawCell_le (k i : Nat) : (rawCell k i).1 ≤ 3 ∧ (rawCell k i).2 ≤ 3 :=
  ⟨Nat.and_le_right, Nat.and_le_right⟩

/-- Rotation keeps cells inside the 4x4 block. -/
theorem rotateCell_le (x y r : Nat) (hx : x ≤ 3) (hy : y ≤ 3) :
    (rotateCell x y r).1 ≤ 3 ∧ (rotateCell x y r).2 ≤ 3 := by
  rcases r with _ | _ | _ | _ | n <;> simp [rotateCell] <;> omega

/-- Every normalized cell of any shape at any rotation index lies inside
the 4x4 block. -/
theorem mem_coorList_le (k r : Nat) : ∀ c ∈ coorList k r, c.1 ≤ 3 ∧ c.2 ≤ 3 := by
  intro c hc
  unfold coorList at hc
  rcases List.mem_map.mp hc with ⟨d, hd, rfl⟩
  have hd3 : d.1 ≤ 3 ∧ d.2 ≤ 3 := by
    unfold rotCells at hd
    rcases List.mem_map.mp hd with ⟨i, _, rfl⟩
    exact rotateCell_le _ _ _ (rawCell_le k i).1 (rawCell_le k i).2
  exact ⟨le_trans (Nat.sub_le _ _) hd3.1, le_trans (Nat.sub_le _ _) hd3.2⟩

/-- Width and height of any shape at any rotation index are at most 4. -/
theorem dim_le (k r : Nat) : (dim k r).1 ≤ 4 ∧ (dim k r).2 ≤ 4 := by
  unfold dim
  constructor
  · have := foldl_max_le_of (fun c => c.1) 3 (coorList k r) 0 (by omega)
      (fun c hc => (mem_coorList_le k r c hc).1)
    simpa using Nat.succ_le_succ this
  · have := foldl_max_le_of (fun c => c.2) 3 (coorList k r) 0 (by omega)
      (fun c hc => (mem_coorList_le k r c hc).2)
    simpa using Nat.succ_le_succ this

/-- Every normalized cell is strictly inside the shape's bounding box. -/
theorem mem_coorList_lt_dim (k r : Nat) :
    ∀ c ∈ coorList k r, c.1 < (dim k r).1 ∧ c.2 < (dim k r).2 := by
  intro c hc
  unfold dim
  constructor
  · have := le_foldl_max (fun c => c.1) (coorList k r) 0 c hc
    simpa using Nat.lt_succ_of_le this
  · have := le_foldl_max (fun c => c.2) (coorList k r) 0 c hc
    simpa using Nat.lt_succ_of_le this

/-- A failing try_move leaves the state either untouched (an early reject)
or equal to the erase/repaint round trip at the old placement (a collision
reject). -/
theorem tryMove_fail (g : Game) (m : Move) (h : (tryMove g m).1 = false) :
    (tryMove g m).2 = g ∨ (tryMove g m).2 = setTetromino (clearTetromino g) := by
  unfold tryMove at *
  rcases hc : candidate g m with _ | ⟨x, y, r⟩
  · exact Or.inl rfl
  · rw [hc] at h
    dsimp only at h ⊢
    by_cases hh : BOARD_HEIGHT < y + (dim g.tetromino.kind r).2
    · rw [if_pos hh]
      exact Or.inl rfl
    · rw [if_neg hh] at h ⊢
      by_cases hhit : hitTest (clearTetromino g) x y r = true
      · rw [if_pos hhit]
        exact Or.inr rfl
      · rw [if_neg hhit] at h
        simp at h

/-- A succeeding try_move commits exactly the candidate placement, which
passed the bottom check. -/
theorem tryMove_succ (g : Game) (m : Move) (h : (tryMove g m).1 = true) :
    ∃ x y r, candidate g m = some (x, y, r) ∧
      y + (dim g.tetromino.kind r).2 ≤ BOARD_HEIGHT ∧
      (tryMove g m).2.tetromino
        = { x := x, y := y, orientation := r, kind := g.tetromino.kind } := by
  unfold tryMove at *
  rcases hc : candidate g m with _ | ⟨x, y, r⟩
  · rw [hc] at h
    simp at h
  · rw [hc] at h
    dsimp only at h ⊢
    by_cases hh : BOARD_HEIGHT < y + (dim g.tetromino.kind r).2
    · rw [if_pos hh] at h
      simp at h
    · rw [if_neg hh] at h ⊢
      by_cases hhit : hitTest (clearTetromino g) x y r = true
      · rw [if_pos hhit] at h
        simp at h
      · rw [if_neg hhit]
        exact ⟨x, y, r, rfl, by omega, rfl⟩

/-- try_move never changes score, tick counter, pause flag or the random
generator. -/
theorem tryMove_frame (g : Game) (m : Move) :
    (tryMove g m).2.score = g.score ∧ (tryMove g m).2.tick = g.tick ∧
    (tryMove g m).2.paused = g.paused ∧ (tryMove g m).2.rng = g.rng := by
  unfold tryMove
  rcases hc : candidate g m with _ | ⟨x, y, r⟩
  · exact ⟨rfl, rfl, rfl, rfl⟩
  · dsimp only
    split_ifs <;> exact ⟨rfl, rfl, rfl, rfl⟩

/-- respawn replaces the tetromino by the next spawn from the stream. -/
theorem respawn_tetromino (g : Game) : (respawn g).tetromino = (Tetromino.new g.rng).1 := rfl

/-- wipe_filled_rows leaves the generator exactly one spawn further. -/
theorem wipeFilledRows_rng (g : Game) : (wipeFilledRows g).rng = (Tetromino.new g.rng).2 := rfl

/-- The tick increment changes no other field. -/
theorem tickInc_board (g : Game) : (tickInc g).board = g.board := rfl

/-- The tetromino is untouched by a failing try_move. -/
theorem tryMove_fail_tetromino (g : Game) (m : Move) (h : (tryMove g m).1 = false) :
    (tryMove g m).2.tetromino = g.tetromino := by
  rcases tryMove_fail g m h with h2 | h2
  · rw [h2]
  · rw [h2]
    rfl

/-- Any candidate placement keeps the piece inside the right wall, given
the current placement does. -/
theorem candidate_width (g : Game) (m : Move) (x y r : Nat)
    (hc : candidate g m = some (x, y, r))
    (hx : g.tetromino.x + (dim g.tetromino.kind g.tetromino.orientation).1 ≤ BOARD_WIDTH) :
    x + (dim g.tetromino.kind r).1 ≤ BOARD_WIDTH := by
  cases m with
  | left =>
    simp only [candidate] at hc
    by_cases h0 : 0 < g.tetromino.x
    · rw [if_pos h0] at hc
      cases hc
      omega
    · rw [if_neg h0] at hc
      cases hc
  | right =>
    simp only [candidate] at hc
    by_cases hw : g.tetromino.x + (dim g.tetromino.kind g.tetromino.orientation).1 < BOARD_WIDTH
    · rw [if_pos hw] at hc
      cases hc
      omega
    · rw [if_neg hw] at hc
      cases hc
  | down =>
    simp only [candidate] at hc
    cases hc
    exact hx
  | rotate =>
    simp only [candidate] at hc
    rw [Option.some.injEq, Prod.mk.injEq, Prod.mk.injEq] at hc
    obtain ⟨h1, h2, h3⟩ := hc
    subst h3
    rw [← h1]
    have h4 := (dim_le g.tetromino.kind ((g.tetromino.orientation + 1) % 4)).1
    by_cases hk : BOARD_WIDTH < g.tetromino.x
        + (dim g.tetromino.kind ((g.tetromino.orientation + 1) % 4)).1
    · rw [if_pos hk]
      unfold BOARD_WIDTH at *
      omega
    · rw [if_neg hk]
      omega

/-- C4: for every kind in [0,7) and rotation in [0,4), Shape::coor returns
exactly 4 pairwise-distinct cells, each with both coordinates in [0,4),
and the minimum x and the minimum y across the 4 cells are both 0 (some
cell has x = 0 and some cell has y = 0). -/
theorem coor_four_distinct_normalized :
    ∀ k, k < 7 → ∀ r, r < 4 →
      (coorList k r).length = 4 ∧ (coorList k r).Nodup ∧
      (∀ c ∈ coorList k r, c.1 < 4 ∧ c.2 < 4) ∧
      (∃ c ∈ coorList k r, c.1 = 0) ∧ (∃ c ∈ coorList k r, c.2 = 0) := by
  decide

/-- C4 witness: the property instantiated at kind 0, rotation 1. -/
theorem coor_four_distinct_normalized_witness :
    (coorList 0 1).length = 4 ∧ (coorList 0 1).Nodup :=
  ⟨(coor_four_distinct_normalized 0 (by decide) 1 (by decide)).1,
   (coor_four_distinct_normalized 0 (by decide) 1 (by decide)).2.1⟩

/-- C9: applying the 90-degree rotate-and-renormalize step four times
returns every shape's rotation-0 cell list to itself, and one step takes
the cells at rotation r to the cells at rotation (r + 1) mod 4, so the four
rotations form one cycle. -/
theorem rotation_cycle_four :
    ∀ k, k < 7 →
      rotStep (rotStep (rotStep (rotStep (coorList k 0)))) = coorList k 0 ∧
      (∀ r, r < 4 → rotStep (coorList k r) = coorList k ((r + 1) % 4)) := by
  decide

/-- C9 witness: four rotation steps return the kind 2 shape to itself. -/
theorem rotation_cycle_four_witness :
    rotStep (rotStep (rotStep (rotStep (coorList 2 0)))) = coorList 2 0 :=
  (rotation_cycle_four 2 (by decide)).1

/-- C5 counterexample: wipe(0) zeroes row 0, so with row 0 initially
holding 7 the physical row r = 0 does not receive the contents of
"row r - 1" (which does not exist; r - 1 = 0 is its only total reading),
refuting the claim's shift clause on the full range [0,20). -/
theorem wipe_row_zero_counterexample :
    (0 : Nat) < 20 ∧ wipe bRow0 0 0 0 = 0 ∧ bRow0 (0 - 1) 0 = 7 := by
  decide

/-- C5 (amended): is_filled(r) holds iff all 10 cells of row r are
non-zero; for r in [1,20) (and in fact every r ≥ 1), after wipe(r) the
physical row r holds what row r - 1 held, every row strictly past r is
unchanged, and row 0 is all zero; at r = 0 the wipe zeroes row 0 and
changes nothing else. -/
theorem isFilled_and_wipe_spec :
    (∀ (b : Board) (row : Nat), isFilled b row = true ↔ ∀ x, x < BOARD_WIDTH → b row x ≠ 0) ∧
    (∀ (b : Board) (r : Nat), 1 ≤ r → ∀ x, wipe b r r x = b (r - 1) x) ∧
    (∀ (b : Board) (r y : Nat), r < y → ∀ x, wipe b r y x = b y x) ∧
    (∀ (b : Board) (r x : Nat), wipe b r 0 x = 0) := by
  refine ⟨isFilled_iff, ?_, ?_, ?_⟩
  · intro b r hr x
    rw [wipe_apply, if_neg (by omega), if_pos (le_refl r)]
  · intro b r y hy x
    rw [wipe_apply, if_neg (by omega), if_neg (by omega)]
  · intro b r x
    rw [wipe_apply, if_pos rfl]

/-- C5 witness: the amended properties instantiated on the board whose
every cell holds its row index plus one, at r = 3. -/
theorem isFilled_and_wipe_spec_witness :
    wipe bRows 3 3 0 = bRows 2 0 ∧ wipe bRows 3 7 4 = bRows 7 4 ∧ wipe bRows 3 0 9 = 0 :=
  ⟨isFilled_and_wipe_spec.2.1 bRows 3 (by decide) 0,
   isFilled_and_wipe_spec.2.2.1 bRows 3 7 (by decide) 4,
   isFilled_and_wipe_spec.2.2.2 bRows 3 9⟩

/-- C6: wipe_filled_rows scans each row of the span y .. y + height once,
collapsing and counting each filled one, and its score increases by
exactly the number of rows of that span that were filled when the call
began: a collapse only rewrites rows at or above itself, so consecutive
filled rows are each independently detected. -/
theorem wipeFilledRows_score_eq (g : Game) :
    (wipeFilledRows g).score = g.score +
      ((List.range' g.tetromino.y (dim g.tetromino.kind g.tetromino.orientation).2).filter
        (fun r => isFilled g.board r)).length := by
  unfold wipeFilledRows respawn
  exact wipeRowsLoop_score _ _ _ _

/-- C1 counterexample: in gC1 the active piece is not painted on the
board; the down move is rejected by collision, yet the board changes: the
repaint step writes kind + 1 = 3 into cell (0,0), which held 0 before the
call.  So a failing try_move is not always free of state change. -/
theorem reject_modifies_unpainted :
    (tryMove gC1 Move.down).1 = false ∧
    gC1.board 0 0 = 0 ∧ (tryMove gC1 Move.down).2.board 0 0 = 3 := by
  decide

/-- C1 (amended): for every state whose active piece is painted on the
board, a failing try_move (any intent) changes nothing: the piece's x, y
and orientation and every board cell are exactly as before the call. -/
theorem reject_preserves_painted (g : Game) (m : Move) (hp : Painted g)
    (hf : (tryMove g m).1 = false) :
    (tryMove g m).2.tetromino.x = g.tetromino.x ∧
    (tryMove g m).2.tetromino.y = g.tetromino.y ∧
    (tryMove g m).2.tetromino.orientation = g.tetromino.orientation ∧
    (tryMove g m).2.board = g.board := by
  rcases tryMove_fail g m hf with h2 | h2
  · rw [h2]
    exact ⟨rfl, rfl, rfl, rfl⟩
  · rw [h2]
    exact ⟨rfl, rfl, rfl, set_clear_board g hp⟩

/-- C1 witness: the painted state gPainted rejects the down move and is
left entirely unchanged. -/
theorem reject_preserves_painted_witness :
    (tryMove gPainted Move.down).2.board = gPainted.board ∧
    (tryMove gPainted Move.down).2.tetromino.y = gPainted.tetromino.y :=
  ⟨(reject_preserves_painted gPainted Move.down (by unfold Painted; decide) (by decide)).2.2.2,
   (reject_preserves_painted gPainted Move.down (by unfold Painted; decide) (by decide)).2.1⟩

/-- C2: if the active piece fits inside the board, then after any try_move
call (success or failure, any intent) it still fits: x + width ≤
BOARD_WIDTH, y + height ≤ BOARD_HEIGHT and 0 ≤ x; in particular the state
after try_move(Right) never has x + width past BOARD_WIDTH and the state
after try_move(Left) never has x below 0. -/
theorem tryMove_preserves_bounds (g : Game) (m : Move)
    (hx : g.tetromino.x + (dim g.tetromino.kind g.tetromino.orientation).1 ≤ BOARD_WIDTH)
    (hy : g.tetromino.y + (dim g.tetromino.kind g.tetromino.orientation).2 ≤ BOARD_HEIGHT) :
    ((tryMove g m).2.tetromino.x
        + (dim (tryMove g m).2.tetromino.kind (tryMove g m).2.tetromino.orientation).1
      ≤ BOARD_WIDTH ∧
    (tryMove g m).2.tetromino.y
        + (dim (tryMove g m).2.tetromino.kind (tryMove g m).2.tetromino.orientation).2
      ≤ BOARD_HEIGHT ∧
    0 ≤ (tryMove g m).2.tetromino.x) ∧
    (tryMove g Move.right).2.tetromino.x
        + (dim (tryMove g Move.right).2.tetromino.kind
            (tryMove g Move.right).2.tetromino.orientation).1 ≤ BOARD_WIDTH ∧
    0 ≤ (tryMove g Move.left).2.tetromino.x := by
  have main : ∀ m' : Move,
      (tryMove g m').2.tetromino.x
          + (dim (tryMove g m').2.tetromino.kind (tryMove g m').2.tetromino.orientation).1
        ≤ BOARD_WIDTH ∧
      (tryMove g m').2.tetromino.y
          + (dim (tryMove g m').2.tetromino.kind (tryMove g m').2.tetromino.orientation).2
        ≤ BOARD_HEIGHT ∧
      0 ≤ (tryMove g m').2.tetromino.x := by
    intro m'
    cases hres : (tryMove g m').1
    · rw [tryMove_fail_tetromino g m' hres]
      exact ⟨hx, hy, Nat.zero_le _⟩
    · rcases tryMove_succ g m' hres with ⟨x, y, r, hc, hhy, hteq⟩
      rw [hteq]
      exact ⟨candidate_width g m' x y r hc hx, hhy, Nat.zero_le _⟩
  exact ⟨main m, (main Move.right).1, (main Move.left).2.2⟩

/-- C2 witness: the O piece at the origin of an empty board keeps its
bounds after a Right move. -/
theorem tryMove_preserves_bounds_witness :
    (tryMove gEmptyO Move.right).2.tetromino.x
        + (dim (tryMove gEmptyO Move.right).2.tetromino.kind
            (tryMove gEmptyO Move.right).2.tetromino.orientation).1 ≤ BOARD_WIDTH ∧
    (tryMove gEmptyO Move.right).2.tetromino.y
        + (dim (tryMove gEmptyO Move.right).2.tetromino.kind
            (tryMove gEmptyO Move.right).2.tetromino.orientation).2 ≤ BOARD_HEIGHT :=
  ⟨(tryMove_preserves_bounds gEmptyO Move.right (by decide) (by decide)).1.1,
   (tryMove_preserves_bounds gEmptyO Move.right (by decide) (by decide)).1.2.1⟩

/-- C3 counterexample: in gC3 a freshly spawned piece's whole footprint
overlaps the occupied top row and the gravity predicate holds on the next
tick, yet do_tick returns true, not false: try_move erases the footprint
before testing and the row below is free, so the piece just moves down. -/
theorem spawn_overlap_no_gameover :
    gC3.paused = false ∧ gC3.tetromino.y = 0 ∧
    gravity ((gC3.tick + 1) % U64_MAX) = true ∧
    gC3.board 0 0 ≠ 0 ∧ gC3.board 0 1 ≠ 0 ∧ gC3.board 0 2 ≠ 0 ∧ gC3.board 0 3 ≠ 0 ∧
    coorList gC3.tetromino.kind gC3.tetromino.orientation = [(3, 0), (2, 0), (1, 0), (0, 0)] ∧
    (doTick gC3).1 = true := by
  decide

set_option maxHeartbeats 1600000 in
/-- C3 (amended): game over at spawn needs the down move to fail, not just
footprint overlap: for any unpaused state with the piece at y = 0, if the
gravity predicate holds on the incremented tick and try_move(Down) fails,
that do_tick call returns false. -/
theorem spawn_blocked_gameover (g : Game)
    (hp : g.paused = false) (hy : g.tetromino.y = 0)
    (hg : gravity ((g.tick + 1) % U64_MAX) = true)
    (hf : (tryMove (tickInc g) Move.down).1 = false) :
    (doTick g).1 = false := by
  unfold doTick
  rw [if_neg (by simp [hp])]
  rw [if_pos (show gravity (tickInc g).tick = true from hg)]
  rw [if_neg (by simp [hf])]
  rw [if_pos (by rw [tryMove_fail_tetromino (tickInc g) Move.down hf]; exact hy)]

/-- C3 witness for the amended claim: gC3b has rows 0 and 1 fully
occupied, its spawned piece cannot move down, and do_tick reports game
over. -/
theorem spawn_blocked_gameover_witness : (doTick gC3b).1 = false :=
  spawn_blocked_gameover gC3b rfl rfl (by decide) (by decide)

/-- C7 counterexample: gC7's freshly spawned piece overlaps pre-filled
cells and cannot move down from y = 0; do_tick reports game over, and the
score is preserved, but the board is not: the repaint writes
kind + 1 = 3 over cell (0,0), which held 5. -/
theorem gameover_modifies_board :
    gC7.paused = false ∧ gC7.tetromino.y = 0 ∧
    gravity ((gC7.tick + 1) % U64_MAX) = true ∧
    (tryMove (tickInc gC7) Move.down).1 = false ∧
    (doTick gC7).1 = false ∧ (doTick gC7).2.score = gC7.score ∧
    gC7.board 0 0 = 5 ∧ (doTick gC7).2.board 0 0 = 3 := by
  decide

set_option maxHeartbeats 1600000 in
/-- C7 (amended): for every unpaused state whose active piece sits at
y = 0, when the gravity predicate holds on the incremented tick and the
down move fails, do_tick returns false and leaves the score exactly as it
was — painted or not — and, provided the piece's footprint was painted on
the board, every board cell is also exactly as it was. -/
theorem gameover_preserves_painted (g : Game)
    (hp : g.paused = false) (hy : g.tetromino.y = 0)
    (hg : gravity ((g.tick + 1) % U64_MAX) = true)
    (hf : (tryMove (tickInc g) Move.down).1 = false) :
    (doTick g).1 = false ∧ (doTick g).2.score = g.score ∧
    (Painted g → (doTick g).2.board = g.board) := by
  have hdt : doTick g = (false, (tryMove (tickInc g) Move.down).2) := by
    unfold doTick
    rw [if_neg (by simp [hp])]
    rw [if_pos (show gravity (tickInc g).tick = true from hg)]
    rw [if_neg (by simp [hf])]
    rw [if_pos (by rw [tryMove_fail_tetromino (tickInc g) Move.down hf]; exact hy)]
  have h1 : (doTick g).1 = false := by
    conv_lhs => rw [hdt]
  have h2 : (doTick g).2.score = g.score := by
    conv_lhs => rw [hdt]
    dsimp only
    exact (tryMove_frame (tickInc g) Move.down).1
  have h3 : Painted g → (doTick g).2.board = g.board := by
    intro hpnt
    conv_lhs => rw [hdt]
    dsimp only
    have hpnt2 : Painted (tickInc g) := hpnt
    rcases tryMove_fail (tickInc g) Move.down hf with heq | heq
    · rw [heq, tickInc_board]
    · rw [heq, set_clear_board (tickInc g) hpnt2, tickInc_board]
  exact ⟨h1, h2, h3⟩

/-- C7 witness: the painted state gPainted hits the y = 0 failure path and
do_tick reports game over with score and board untouched. -/
theorem gameover_preserves_painted_witness :
    (doTick gPainted).1 = false ∧ (doTick gPainted).2.score = gPainted.score ∧
    (doTick gPainted).2.board = gPainted.board :=
  ⟨(gameover_preserves_painted gPainted rfl rfl (by decide) (by decide)).1,
   (gameover_preserves_painted gPainted rfl rfl (by decide) (by decide)).2.1,
   (gameover_preserves_painted gPainted rfl rfl (by decide) (by decide)).2.2
     (by unfold Painted; decide)⟩

set_option maxHeartbeats 1600000 in
/-- C10: wipe_filled_rows also replaces the active tetromino with a fresh
spawn from the generator (and touches neither tick nor paused), and in
do_tick's lock path a second spawn immediately overwrites it, so two
tetrominoes are drawn and the first is discarded. -/
theorem wipeFilledRows_respawn_frame (g : Game) :
    (wipeFilledRows g).tick = g.tick ∧
    (wipeFilledRows g).paused = g.paused ∧
    (wipeFilledRows g).tetromino = (Tetromino.new g.rng).1 ∧
    (wipeFilledRows g).rng = (Tetromino.new g.rng).2 ∧
    (g.paused = false →
      gravity ((g.tick + 1) % U64_MAX) = true →
      (tryMove (tickInc g) Move.down).1 = false →
      (tryMove (tickInc g) Move.down).2.tetromino.y ≠ 0 →
      (doTick g).1 = true ∧
      (doTick g).2.tetromino = (Tetromino.new (Tetromino.new g.rng).2).1) := by
  refine ⟨rfl, rfl, rfl, rfl, ?_⟩
  intro hp hg hf hy
  have hdt : doTick g
      = (true, respawn (wipeFilledRows (tryMove (tickInc g) Move.down).2)) := by
    unfold doTick
    rw [if_neg (by simp [hp])]
    rw [if_pos (show gravity (tickInc g).tick = true from hg)]
    rw [if_neg (by simp [hf])]
    rw [if_neg hy]
  have hr : (tryMove (tickInc g) Move.down).2.rng = g.rng :=
    (tryMove_frame (tickInc g) Move.down).2.2.2
  have hA : (doTick g).1 = true := by
    conv_lhs => rw [hdt]
  have hB : (doTick g).2.tetromino = (Tetromino.new (Tetromino.new g.rng).2).1 := by
    conv_lhs => rw [hdt]
    dsimp only
    rw [respawn_tetromino, wipeFilledRows_rng, hr]
  exact ⟨hA, hB⟩

/-- C10 witness: in gLock the lock path runs and the resulting active
piece is the second of the two spawns drawn from the stream. -/
theorem wipeFilledRows_respawn_frame_witness :
    (doTick gLock).1 = true ∧
    (doTick gLock).2.tetromino = (Tetromino.new (Tetromino.new gLock.rng).2).1 :=
  (wipeFilledRows_respawn_frame gLock).2.2.2.2 rfl (by decide) (by decide) (by decide)

/-- When the collision test misses, every candidate cell passed both bound
checks. -/
theorem hitTest_false_bounds (g : Game) (x y r : Nat)
    (h : hitTest g x y r = false) :
    ∀ c ∈ coorList g.tetromino.kind r, x + c.1 < BOARD_WIDTH ∧ y + c.2 < BOARD_HEIGHT := by
  intro c hc
  unfold hitTest at h
  rw [List.any_eq_false] at h
  have h2 := h c hc
  simp only [Bool.or_eq_true, decide_eq_true_eq, not_or] at h2
  exact ⟨by omega, by omega⟩

/-- Painting the piece only touches cells inside the board when the piece
fits inside the board. -/
theorem drawAccesses_bound (t : Tetromino)
    (hx : t.x + (dim t.kind t.orientation).1 ≤ BOARD_WIDTH)
    (hy : t.y + (dim t.kind t.orientation).2 ≤ BOARD_HEIGHT) :
    ∀ a ∈ drawAccesses t, a.1 < BOARD_WIDTH ∧ a.2 < BOARD_HEIGHT := by
  intro a ha
  unfold drawAccesses at ha
  rcases List.mem_map.mp ha with ⟨c, hc, rfl⟩
  have hlt := mem_coorList_lt_dim t.kind t.orientation c hc
  constructor
  · simp only
    omega
  · simp only
    omega

/-- The collision-test gets are guarded by the bound disjuncts, so the
cells actually read are always inside the board. -/
theorem candGetAccesses_bound (t : Tetromino) (x y r : Nat) :
    ∀ a ∈ candGetAccesses t x y r, a.1 < BOARD_WIDTH ∧ a.2 < BOARD_HEIGHT := by
  intro a ha
  unfold candGetAccesses at ha
  rcases List.mem_filterMap.mp ha with ⟨c, _, hfc⟩
  by_cases h1 : BOARD_HEIGHT ≤ y + c.2
  · rw [if_pos h1] at hfc
    cases hfc
  · rw [if_neg h1] at hfc
    by_cases h2 : BOARD_WIDTH ≤ x + c.1
    · rw [if_pos h2] at hfc
      cases hfc
    · rw [if_neg h2] at hfc
      cases hfc
      exact ⟨by omega, by omega⟩

/-- A row collapse only touches rows 0 .. r, all columns. -/
theorem wipeAccesses_bound (r : Nat) (hr : r < BOARD_HEIGHT) :
    ∀ a ∈ wipeAccesses r, a.1 < BOARD_WIDTH ∧ a.2 < BOARD_HEIGHT := by
  intro a ha
  unfold wipeAccesses at ha
  rcases List.mem_flatMap.mp ha with ⟨row, hrow, hma⟩
  rcases List.mem_map.mp hma with ⟨x, hxm, rfl⟩
  rw [List.mem_range] at hrow hxm
  constructor
  · simpa using hxm
  · simp only
    omega

/-- The row loop of wipe_filled_rows only touches the board inside its row
list when every listed row is on the board. -/
theorem wipeRowsLoopAccesses_bound :
    ∀ (rows : List Nat) (b : Board), (∀ rr ∈ rows, rr < BOARD_HEIGHT) →
      ∀ a ∈ wipeRowsLoopAccesses b rows, a.1 < BOARD_WIDTH ∧ a.2 < BOARD_HEIGHT := by
  intro rows
  induction rows with
  | nil =>
    intro b _ a ha
    simp [wipeRowsLoopAccesses] at ha
  | cons r rs ih =>
    intro b hrows a ha
    simp only [wipeRowsLoopAccesses] at ha
    rw [List.mem_append] at ha
    rcases ha with ha | ha
    · rcases List.mem_map.mp ha with ⟨x, hxm, rfl⟩
      rw [List.mem_range] at hxm
      constructor
      · simpa using hxm
      · simp only
        exact hrows r (List.mem_cons_self r rs)
    · by_cases hfill : isFilled b r = true
      · rw [if_pos hfill, List.mem_append] at ha
        rcases ha with ha | ha
        · exact wipeAccesses_bound r (hrows r (List.mem_cons_self r rs)) a ha
        · exact ih (wipe b r) (fun rr hrr => hrows rr (List.mem_cons_of_mem r hrr)) a ha
      · rw [if_neg hfill] at ha
        exact ih b (fun rr hrr => hrows rr (List.mem_cons_of_mem r hrr)) a ha

/-- Every board index try_move touches, on any path, is inside the board,
provided the piece currently fits inside the board. -/
theorem tryMoveAccesses_bound (g : Game) (m : Move)
    (hx : g.tetromino.x + (dim g.tetromino.kind g.tetromino.orientation).1 ≤ BOARD_WIDTH)
    (hy : g.tetromino.y + (dim g.tetromino.kind g.tetromino.orientation).2 ≤ BOARD_HEIGHT) :
    ∀ a ∈ tryMoveAccesses g m, a.1 < BOARD_WIDTH ∧ a.2 < BOARD_HEIGHT := by
  intro a ha
  unfold tryMoveAccesses at ha
  rcases hc : candidate g m with _ | ⟨x, y, r⟩
  · rw [hc] at ha
    dsimp only at ha
    exact absurd ha (List.not_mem_nil a)
  · rw [hc] at ha
    dsimp only at ha
    by_cases hh : BOARD_HEIGHT < y + (dim g.tetromino.kind r).2
    · rw [if_pos hh] at ha
      exact absurd ha (List.not_mem_nil a)
    · rw [if_neg hh] at ha
      simp only [List.mem_append] at ha
      rcases ha with ((ha | ha) | ha) | ha
      · exact drawAccesses_bound g.tetromino hx hy a ha
      · exact candGetAccesses_bound g.tetromino x y r a ha
      · exact drawAccesses_bound g.tetromino hx hy a ha
      · by_cases hhit : hitTest (clearTetromino g) x y r = true
        · rw [if_pos hhit] at ha
          exact absurd ha (List.not_mem_nil a)
        · rw [if_neg hhit] at ha
          rw [List.mem_append] at ha
          have hhit2 : hitTest (clearTetromino g) x y r = false := by
            cases hb : hitTest (clearTetromino g) x y r
            · rfl
            · exact absurd hb hhit
          rcases ha with ha | ha
          · exact drawAccesses_bound g.tetromino hx hy a ha
          · unfold drawAccesses at ha
            rcases List.mem_map.mp ha with ⟨c, hcc, rfl⟩
            have hb := hitTest_false_bounds (clearTetromino g) x y r hhit2 c hcc
            constructor
            · simp only
              omega
            · simp only
              omega

/-- C8: starting from a state whose active piece is inside the board with
kind in [0,7) and orientation in [0,4), every Board.get and Board.set
index performed during try_move, wipe_filled_rows and do_tick lies within
[0,10) x [0,20): the unchecked array accesses of the source never leave
the grid. -/
theorem engine_accesses_in_bounds (g : Game) (m : Move)
    (hk : g.tetromino.kind < 7) (ho : g.tetromino.orientation < 4)
    (hx : g.tetromino.x + (dim g.tetromino.kind g.tetromino.orientation).1 ≤ BOARD_WIDTH)
    (hy : g.tetromino.y + (dim g.tetromino.kind g.tetromino.orientation).2 ≤ BOARD_HEIGHT) :
    (∀ a ∈ tryMoveAccesses g m, a.1 < BOARD_WIDTH ∧ a.2 < BOARD_HEIGHT) ∧
    (∀ a ∈ wipeFilledRowsAccesses g, a.1 < BOARD_WIDTH ∧ a.2 < BOARD_HEIGHT) ∧
    (∀ a ∈ doTickAccesses g, a.1 < BOARD_WIDTH ∧ a.2 < BOARD_HEIGHT) := by
  have hwipe : ∀ (g2 : Game),
      g2.tetromino.y + (dim g2.tetromino.kind g2.tetromino.orientation).2 ≤ BOARD_HEIGHT →
      ∀ a ∈ wipeFilledRowsAccesses g2, a.1 < BOARD_WIDTH ∧ a.2 < BOARD_HEIGHT := by
    intro g2 hy2
    unfold wipeFilledRowsAccesses
    apply wipeRowsLoopAccesses_bound
    intro rr hrr
    rw [List.mem_range'_1] at hrr
    omega
  refine ⟨tryMoveAccesses_bound g m hx hy, hwipe g hy, ?_⟩
  unfold doTickAccesses
  by_cases hp : g.paused = true
  · rw [if_pos hp]
    intro a ha
    exact absurd ha (List.not_mem_nil a)
  · rw [if_neg hp]
    by_cases hgr : gravity (tickInc g).tick = true
    · rw [if_pos hgr]
      intro a ha
      rw [List.mem_append] at ha
      rcases ha with ha | ha
      · exact tryMoveAccesses_bound (tickInc g) Move.down hx hy a ha
      · by_cases hres : (tryMove (tickInc g) Move.down).1 = true
        · rw [if_pos hres] at ha
          exact absurd ha (List.not_mem_nil a)
        · rw [if_neg hres] at ha
          have hres2 : (tryMove (tickInc g) Move.down).1 = false := by
            cases hb : (tryMove (tickInc g) Move.down).1
            · rfl
            · exact absurd hb hres
          have ht : (tryMove (tickInc g) Move.down).2.tetromino = g.tetromino :=
            tryMove_fail_tetromino (tickInc g) Move.down hres2
          by_cases hy0 : (tryMove (tickInc g) Move.down).2.tetromino.y = 0
          · rw [if_pos hy0] at ha
            exact absurd ha (List.not_mem_nil a)
          · rw [if_neg hy0] at ha
            refine hwipe _ ?_ a ha
            rw [ht]
            exact hy
    · rw [if_neg hgr]
      intro a ha
      exact absurd ha (List.not_mem_nil a)

/-- C8 witness: the property instantiated on the vertical I piece at the
top left of an empty board, checked at the first erase access (0, 0). -/
theorem engine_accesses_in_bounds_witness :
    ((0, 0) : Nat × Nat) ∈ tryMoveAccesses gEmptyI Move.down ∧
    ((0 : Nat) < BOARD_WIDTH ∧ (0 : Nat) < BOARD_HEIGHT) :=
  ⟨by decide,
   (engine_accesses_in_bounds gEmptyI Move.down (by decide) (by decide)
      (by decide) (by decide)).1 (0, 0) (by decide)⟩
